import Mathlib

/-!
# kime Qt5 input context (`src/qt5/src/input_context.cc`)

A shallow embedding of `KimeInputContext`: the key-event filter, the
flush performed by `reset`, the focus bookkeeping of `setFocusObject`, and
the two dispatch primitives `commit_ch` and `preedit_ch`.

The engine (`kime_engine_press_key`, `kime_engine_reset`) and the constants of
`kime_engine.h` are external to the file and are taken as a parameter.  Qt is
a library; the few pieces of it the file uses (`QFlags::testFlag`,
`QString::fromUcs4`, `QInputMethodEvent`, `QCoreApplication::sendEvent`) are
represented by what the file hands to them: every call that leaves the class
is appended, in program order, to a log.  The logging under `DEBUG` only writes
to the debug stream and is left out.  The 32-bit scalars (`char32_t`, `uint32_t`)
are natural numbers; the one narrowing cast, `(uint16_t)` on the scan code, is
a reduction modulo `2 ^ 16`.
-/

namespace Kime

/-! ## Qt side -/

/-- Handle of a host object (`QObject *` that is not null). -/
structure QObject where
  id : Nat
deriving DecidableEq, Repr

/-- Text of a `QString`, kept as the sequence of UCS-4 code points it was built from. -/
abbrev QString := List Nat

/-- `QString::fromUcs4(unicode, size)`: the first `size` code points of the buffer. -/
def QString.fromUcs4 (unicode : List Nat) (size : Nat) : QString :=
  unicode.take size

/-- One entry of the attribute list of a preedit event (`QInputMethodEvent::Attribute`);
the context only passes the list through. -/
structure Attribute where
  id : Nat
deriving DecidableEq, Repr

/-- The three observable parts of a `QInputMethodEvent`. -/
structure QInputMethodEvent where
  preeditString : QString
  attributes : List Attribute
  commitString : QString
deriving DecidableEq, Repr

/-- `QInputMethodEvent()`: no preedit text, no attributes, no commit text. -/
def QInputMethodEvent.empty : QInputMethodEvent :=
  { preeditString := [], attributes := [], commitString := [] }

/-- `QInputMethodEvent(preeditText, attributes)`. -/
def QInputMethodEvent.ofPreedit (preeditText : QString) (attributes : List Attribute) :
    QInputMethodEvent :=
  { preeditString := preeditText, attributes := attributes, commitString := [] }

/-- `e.setCommitString(commitString)`. -/
def QInputMethodEvent.setCommitString (e : QInputMethodEvent) (commitString : QString) :
    QInputMethodEvent :=
  { e with commitString := commitString }

/-- `QEvent::KeyPress`. -/
def QEvent.KeyPress : Nat := 6

/-- `QEvent::KeyRelease`. -/
def QEvent.KeyRelease : Nat := 7

/-- An incoming event: its `type()`, and, read through the `QKeyEvent` cast,
its `modifiers()` (the raw flag word) and its 32-bit `nativeScanCode()`. -/
structure QEvent where
  type : Nat
  modifiers : Nat
  nativeScanCode : Nat
deriving DecidableEq, Repr

/-- `Qt::ShiftModifier`. -/
def Qt.ShiftModifier : Nat := 0x02000000
/-- `Qt::ControlModifier`. -/
def Qt.ControlModifier : Nat := 0x04000000
/-- `Qt::AltModifier`. -/
def Qt.AltModifier : Nat := 0x08000000
/-- `Qt::MetaModifier`. -/
def Qt.MetaModifier : Nat := 0x10000000
/-- `Qt::KeypadModifier`. -/
def Qt.KeypadModifier : Nat := 0x20000000
/-- `Qt::GroupSwitchModifier`. -/
def Qt.GroupSwitchModifier : Nat := 0x40000000

/-- `QFlags::testFlag`: `(i & flag) == flag && (flag != 0 || i == flag)`. -/
def QFlags.testFlag (i flag : Nat) : Bool :=
  (i &&& flag == flag) && (flag != 0 || i == flag)

/-! ## Engine side (`kime_engine.h`) -/

/-- Tag of an engine result.  The eight enumerators are the ones the `switch` of
`filterEvent` names; `other raw` is any value of the tag field that is none of them
(the `default:` label). -/
inductive InputResultType where
  | Bypass
  | ToggleHangul
  | ClearPreedit
  | Commit
  | CommitPreedit
  | Preedit
  | CommitCommit
  | CommitBypass
  | other (raw : Nat)
deriving DecidableEq, Repr

/-- `InputResult`: a tag and two 32-bit code points, `0` meaning no character. -/
structure InputResult where
  ty : InputResultType
  char1 : Nat
  char2 : Nat
deriving DecidableEq, Repr

/-- What `input_context.cc` uses of `kime_engine.h`: the three modifier constants and the
two engine entry points.  `E` is the state behind the `InputEngine *`, `C` the `Config`.
Each entry point returns its result together with the engine state it leaves. -/
structure KimeEngine (E C : Type) where
  ModifierState_CONTROL : Nat
  ModifierState_SHIFT : Nat
  ModifierState_SUPER : Nat
  kime_engine_press_key : E → C → Nat → Nat → InputResult × E
  kime_engine_reset : E → Nat × E

/-! ## The context and its surroundings -/

/-- A call that leaves `KimeInputContext`, as it appears in the log. -/
inductive Call where
  | press_key (hardware_code : Nat) (state : Nat)
  | reset
  | sendEvent (receiver : Option QObject) (e : QInputMethodEvent)
deriving DecidableEq, Repr

/-- Data members of `KimeInputContext` other than the engine pointer. -/
structure KimeInputContext (C : Type) where
  config : C
  focus_object : Option QObject
  attributes : List Attribute
deriving DecidableEq, Repr

/-- The context together with the engine it points to and the log of calls made so far
(oldest first). -/
structure World (E C : Type) where
  engine : E
  self : KimeInputContext C
  calls : List Call
deriving DecidableEq, Repr

/-- How a member function ends: it returns a value, or a failed `assert` aborts the
process; either way the world reached is kept. -/
inductive Outcome (α W : Type) where
  | returned (value : α) (w : W)
  | aborted (w : W)
deriving DecidableEq, Repr

/-- The world in which the call ended. -/
def Outcome.world {α W : Type} : Outcome α W → W
  | .returned _ w => w
  | .aborted w => w

/-- The returned value, if the call returned. -/
def Outcome.value {α W : Type} : Outcome α W → Option α
  | .returned v _ => some v
  | .aborted _ => none

/-- `QCoreApplication::sendEvent(receiver, &e)`, recorded in the log. -/
def sendEvent {E C : Type} (w : World E C) (receiver : Option QObject)
    (e : QInputMethodEvent) : World E C :=
  { w with calls := w.calls ++ [Call.sendEvent receiver e] }

/-- `KimeInputContext::commit_ch` (lines 118-124). -/
def commit_ch {E C : Type} (w : World E C) (ch : Nat) : World E C :=
  let e := QInputMethodEvent.empty
  let e := if ch ≠ 0 then e.setCommitString (QString.fromUcs4 [ch] 1) else e
  sendEvent w w.self.focus_object e

/-- `KimeInputContext::preedit_ch` (lines 112-116).  `ndebug` tells whether `NDEBUG` is
defined, in which case the `assert` is compiled out. -/
def preedit_ch {E C : Type} (ndebug : Bool) (w : World E C) (ch : Nat) :
    Outcome Unit (World E C) :=
  if !ndebug && ch == 0 then
    Outcome.aborted w
  else
    let e := QInputMethodEvent.ofPreedit (QString.fromUcs4 [ch] 1) w.self.attributes
    Outcome.returned () (sendEvent w w.self.focus_object e)

/-- `KimeInputContext::reset` (lines 15-25). -/
def reset {E C : Type} (api : KimeEngine E C) (w : World E C) : World E C :=
  let r := api.kime_engine_reset w.engine
  let ch := r.1
  let w := { w with engine := r.2, calls := w.calls ++ [Call.reset] }
  if ch ≠ 0 then commit_ch w ch else w

/-- `KimeInputContext::setFocusObject` (lines 27-36). -/
def setFocusObject {E C : Type} (api : KimeEngine E C) (w : World E C)
    (object : Option QObject) : World E C :=
  if object.isSome then
    { w with self := { w.self with focus_object := object } }
  else
    reset api { w with self := { w.self with focus_object := object } }

/-- The `ModifierState` built in lines 57-71 of `filterEvent`. -/
def modifierState {E C : Type} (api : KimeEngine E C) (modifiers : Nat) : Nat :=
  let state := 0
  let state := if QFlags.testFlag modifiers Qt.ControlModifier then
    state ||| api.ModifierState_CONTROL else state
  let state := if QFlags.testFlag modifiers Qt.ShiftModifier then
    state ||| api.ModifierState_SHIFT else state
  let state := if QFlags.testFlag modifiers Qt.MetaModifier then
    state ||| api.ModifierState_SUPER else state
  state

/-- `KimeInputContext::filterEvent` (lines 51-110). -/
def filterEvent {E C : Type} (ndebug : Bool) (api : KimeEngine E C) (w : World E C)
    (event : QEvent) : Outcome Bool (World E C) :=
  if event.type ≠ QEvent.KeyPress then
    Outcome.returned false w
  else
    let state := modifierState api event.modifiers
    let hardware_code := event.nativeScanCode % 2 ^ 16
    let r := api.kime_engine_press_key w.engine w.self.config hardware_code state
    let ret := r.1
    let w := { w with engine := r.2, calls := w.calls ++ [Call.press_key hardware_code state] }
    match ret.ty with
    | .Bypass => Outcome.returned false w
    | .ToggleHangul => Outcome.returned true w
    | .ClearPreedit => Outcome.returned true (commit_ch w 0)
    | .Commit => Outcome.returned true (commit_ch w ret.char1)
    | .CommitPreedit =>
      match preedit_ch ndebug (commit_ch w ret.char1) ret.char2 with
      | .returned _ w => Outcome.returned true w
      | .aborted w => Outcome.aborted w
    | .Preedit =>
      match preedit_ch ndebug w ret.char1 with
      | .returned _ w => Outcome.returned true w
      | .aborted w => Outcome.aborted w
    | .CommitCommit => Outcome.returned true (commit_ch (commit_ch w ret.char1) ret.char2)
    | .CommitBypass => Outcome.returned false (commit_ch w ret.char1)
    | .other _ => Outcome.returned false w

/-! ## Observations on the log -/

/-- The `sendEvent` calls of a log, in order. -/
def sentEvents : List Call → List (Option QObject × QInputMethodEvent)
  | [] => []
  | Call.sendEvent receiver e :: cs => (receiver, e) :: sentEvents cs
  | _ :: cs => sentEvents cs

/-- The arguments of the `kime_engine_press_key` calls of a log, in order. -/
def pressKeyCalls : List Call → List (Nat × Nat)
  | [] => []
  | Call.press_key hardware_code state :: cs => (hardware_code, state) :: pressKeyCalls cs
  | _ :: cs => pressKeyCalls cs

/-- Number of `kime_engine_reset` calls in a log. -/
def resetCalls : List Call → Nat
  | [] => 0
  | Call.reset :: cs => resetCalls cs + 1
  | _ :: cs => resetCalls cs

/-- An event carries preview text (it was built by `preedit_ch`, not by `commit_ch`). -/
def isPreview (e : QInputMethodEvent) : Bool :=
  !e.preeditString.isEmpty

/-! ## The table of the specification -/

namespace Spec

/-- An action of the result table: `commit(ch)` or `preview(ch)`. -/
inductive Action where
  | commit (ch : Nat)
  | preview (ch : Nat)
deriving DecidableEq, Repr

/-- The notification an action stands for, as the specification words the two operations:
`commit` carries exactly the one scalar as commit text, or empty text for the sentinel, and
no preview text; `preview` carries exactly the one scalar as preview text with the
attribute list handed through, and no commit text. -/
def Action.notification (attributes : List Attribute) : Action → QInputMethodEvent
  | .commit ch =>
    { preeditString := [], attributes := [], commitString := if ch = 0 then [] else [ch] }
  | .preview ch =>
    { preeditString := [ch], attributes := attributes, commitString := [] }

/-- Action column of the table of section 4.1, by tag. -/
def actions (ret : InputResult) : List Action :=
  match ret.ty with
  | .Bypass => []
  | .ToggleHangul => []
  | .ClearPreedit => [.commit 0]
  | .Commit => [.commit ret.char1]
  | .CommitPreedit => [.commit ret.char1, .preview ret.char2]
  | .Preedit => [.preview ret.char1]
  | .CommitCommit => [.commit ret.char1, .commit ret.char2]
  | .CommitBypass => [.commit ret.char1]
  | .other _ => []

/-- Consumed column of the table of section 4.1, by tag. -/
def consumed (ty : InputResultType) : Bool :=
  match ty with
  | .Bypass => false
  | .ToggleHangul => true
  | .ClearPreedit => true
  | .Commit => true
  | .CommitPreedit => true
  | .Preedit => true
  | .CommitCommit => true
  | .CommitBypass => false
  | .other _ => false

end Spec

/-- The scalar a result routes to `preedit_ch`, if its tag routes one. -/
def previewPayload (ret : InputResult) : Option Nat :=
  match ret.ty with
  | .CommitPreedit => some ret.char2
  | .Preedit => some ret.char1
  | _ => none

/-! ## A small engine for concrete runs -/

/-- An engine that answers every key with `ret` and every reset with `resetCh`; its state
counts the keys pressed since the last reset.  Modifier constants as in kime. -/
def scripted (ret : InputResult) (resetCh : Nat) : KimeEngine Nat Unit where
  ModifierState_CONTROL := 1
  ModifierState_SHIFT := 4
  ModifierState_SUPER := 2
  kime_engine_press_key := fun e _ _ _ => (ret, e + 1)
  kime_engine_reset := fun _ => (resetCh, 0)

/-- A world whose context has focus on `focus`, with one attribute and an empty log. -/
def world0 (focus : Option QObject) : World Nat Unit :=
  { engine := 0, self := { config := (), focus_object := focus, attributes := [⟨1⟩] },
    calls := [] }

/-- A key press with the given modifier word and native scan code. -/
def keyPress (modifiers nativeScanCode : Nat) : QEvent :=
  { type := QEvent.KeyPress, modifiers := modifiers, nativeScanCode := nativeScanCode }

/-! ## Lemmas on the log observations -/

theorem sentEvents_append (xs ys : List Call) :
    sentEvents (xs ++ ys) = sentEvents xs ++ sentEvents ys := by
  induction xs with
  | nil => rfl
  | cons c cs ih => cases c <;> simp [sentEvents, ih]

theorem pressKeyCalls_append (xs ys : List Call) :
    pressKeyCalls (xs ++ ys) = pressKeyCalls xs ++ pressKeyCalls ys := by
  induction xs with
  | nil => rfl
  | cons c cs ih => cases c <;> simp [pressKeyCalls, ih]

theorem resetCalls_append (xs ys : List Call) :
    resetCalls (xs ++ ys) = resetCalls xs + resetCalls ys := by
  induction xs with
  | nil => simp [resetCalls]
  | cons c cs ih => cases c <;> simp [resetCalls, ih]; omega

/-- Bits of the flag word built by `modifierState`, when the three constants are the
distinct single bits `a`, `b`, `c`. -/
theorem modifierState_testBit {E C : Type} (api : KimeEngine E C) (modifiers a b c : Nat)
    (hC : api.ModifierState_CONTROL = 2 ^ a) (hS : api.ModifierState_SHIFT = 2 ^ b)
    (hM : api.ModifierState_SUPER = 2 ^ c) (i : Nat) :
    (modifierState api modifiers).testBit i =
      ((QFlags.testFlag modifiers Qt.ControlModifier && decide (a = i)) ||
       (QFlags.testFlag modifiers Qt.ShiftModifier && decide (b = i)) ||
       (QFlags.testFlag modifiers Qt.MetaModifier && decide (c = i))) := by
  unfold modifierState
  rw [hC, hS, hM]
  cases QFlags.testFlag modifiers Qt.ControlModifier <;>
    cases QFlags.testFlag modifiers Qt.ShiftModifier <;>
    cases QFlags.testFlag modifiers Qt.MetaModifier <;>
    simp [Nat.testBit_lor, Nat.testBit_two_pow]

/-- The flag word depends on the modifier word only through the three tested flags. -/
theorem modifierState_congr {E C : Type} (api : KimeEngine E C) (m1 m2 : Nat)
    (hc : QFlags.testFlag m2 Qt.ControlModifier = QFlags.testFlag m1 Qt.ControlModifier)
    (hs : QFlags.testFlag m2 Qt.ShiftModifier = QFlags.testFlag m1 Qt.ShiftModifier)
    (hm : QFlags.testFlag m2 Qt.MetaModifier = QFlags.testFlag m1 Qt.MetaModifier) :
    modifierState api m2 = modifierState api m1 := by
  simp [modifierState, hc, hs, hm]

/-- On a key press the log gains exactly one engine call, whatever the engine answers. -/
theorem filterEvent_pressKeyCalls {E C : Type} (ndebug : Bool) (api : KimeEngine E C)
    (w : World E C) (event : QEvent) (hkey : event.type = QEvent.KeyPress) :
    pressKeyCalls (filterEvent ndebug api w event).world.calls =
      pressKeyCalls w.calls ++
        [(event.nativeScanCode % 2 ^ 16, modifierState api event.modifiers)] := by
  unfold filterEvent
  simp only [hkey, ne_eq, not_true_eq_false, if_false]
  generalize api.kime_engine_press_key w.engine w.self.config (event.nativeScanCode % 2 ^ 16)
    (modifierState api event.modifiers) = r
  obtain ⟨⟨ty, c1, c2⟩, eng⟩ := r
  cases ty <;> cases ndebug <;> by_cases h1 : c1 = 0 <;> by_cases h2 : c2 = 0 <;>
    simp [preedit_ch, commit_ch, sendEvent, Outcome.world, pressKeyCalls_append,
      pressKeyCalls, h1, h2]

/-! ## The key-event filter -/

/-- C1: on a key press whose engine result `ret` carries one of the eight named tags, with
the scalar routed to `preedit_ch` (if any) non-sentinel, `filterEvent` returns, and what it
adds to the log is the engine call followed by exactly the actions of the table for `ret`,
in the table's order, each sent to the focus object.  For `CommitPreedit` this is the commit
of `char1` first and the preview of `char2` second. -/
theorem filterEvent_table_actions {E C : Type} (ndebug : Bool) (api : KimeEngine E C)
    (w : World E C) (event : QEvent) (ret : InputResult) (eng : E)
    (hkey : event.type = QEvent.KeyPress)
    (hret : api.kime_engine_press_key w.engine w.self.config (event.nativeScanCode % 2 ^ 16)
      (modifierState api event.modifiers) = (ret, eng))
    (hty : ∀ raw, ret.ty ≠ InputResultType.other raw)
    (hprev : previewPayload ret ≠ some 0) :
    (∃ v w1, filterEvent ndebug api w event = Outcome.returned v w1 ∧
      w1.calls = w.calls ++
        Call.press_key (event.nativeScanCode % 2 ^ 16) (modifierState api event.modifiers) ::
          (Spec.actions ret).map
            (fun a => Call.sendEvent w.self.focus_object (a.notification w.self.attributes)) ∧
      sentEvents w1.calls = sentEvents w.calls ++
        (Spec.actions ret).map
          (fun a => (w.self.focus_object, a.notification w.self.attributes))) ∧
    (ret.ty = InputResultType.CommitPreedit →
      sentEvents (filterEvent ndebug api w event).world.calls = sentEvents w.calls ++
        [(w.self.focus_object,
            { preeditString := [], attributes := [],
              commitString := if ret.char1 = 0 then [] else [ret.char1] }),
         (w.self.focus_object,
            { preeditString := [ret.char2], attributes := w.self.attributes,
              commitString := [] })]) := by
  obtain ⟨ty, c1, c2⟩ := ret
  cases ty <;>
    first
    | exact absurd rfl (hty _)
    | (by_cases h1 : c1 = 0 <;> by_cases h2 : c2 = 0 <;>
        simp_all [filterEvent, previewPayload, preedit_ch, commit_ch, sendEvent, Outcome.world,
          Spec.actions, Spec.Action.notification, QInputMethodEvent.empty,
          QInputMethodEvent.ofPreedit, QInputMethodEvent.setCommitString, QString.fromUcs4,
          sentEvents_append, sentEvents])

/-- Concrete run for C1: `CommitPreedit` with `char1 = 'A'`, `char2 = 'B'` on a focused
object sends the commit of "A" and then the preview of "B". -/
theorem filterEvent_table_actions_witness :
    sentEvents (filterEvent false (scripted ⟨InputResultType.CommitPreedit, 65, 66⟩ 0)
      (world0 (some ⟨7⟩)) (keyPress 0 30)).world.calls =
      [(some ⟨7⟩, { preeditString := [], attributes := [], commitString := [65] }),
       (some ⟨7⟩, { preeditString := [66], attributes := [⟨1⟩], commitString := [] })] :=
  (filterEvent_table_actions false (scripted ⟨InputResultType.CommitPreedit, 65, 66⟩ 0)
    (world0 (some ⟨7⟩)) (keyPress 0 30) ⟨InputResultType.CommitPreedit, 65, 66⟩ 1 rfl rfl
    (by intro raw h; cases h) (by decide)).2 rfl

/-- C2, as stated, fails: with assertions enabled, a key press answered by `Preedit` with
the sentinel as `char1` does not return `true`; the `assert` of `preedit_ch` aborts the call
right after the engine call. -/
theorem filterEvent_consumed_counterexample :
    Spec.consumed InputResultType.Preedit = true ∧
    filterEvent false (scripted ⟨InputResultType.Preedit, 0, 0⟩ 0) (world0 (some ⟨7⟩))
      (keyPress 0 30) =
      Outcome.aborted
        { engine := 1, self := (world0 (some ⟨7⟩)).self, calls := [Call.press_key 30 0] } := by
  decide

/-- C2, amended: on a key press with engine result `ret`, `filterEvent` aborts exactly when
assertions are enabled and the scalar routed to `preedit_ch` is the sentinel; in every other
case it returns, and the value returned is `true` exactly for the tags `ToggleHangul`,
`ClearPreedit`, `Commit`, `CommitPreedit`, `Preedit`, `CommitCommit` (so `false` for `Bypass`,
`CommitBypass` and unknown tags).  For `CommitBypass` with a non-sentinel `char1` the call
sends exactly one commit of `char1` and returns `false`. -/
theorem filterEvent_consumed {E C : Type} (ndebug : Bool) (api : KimeEngine E C)
    (w : World E C) (event : QEvent) (ret : InputResult) (eng : E)
    (hkey : event.type = QEvent.KeyPress)
    (hret : api.kime_engine_press_key w.engine w.self.config (event.nativeScanCode % 2 ^ 16)
      (modifierState api event.modifiers) = (ret, eng)) :
    (filterEvent ndebug api w event).value =
      (if ndebug = false ∧ previewPayload ret = some 0 then none
       else some (decide (ret.ty = InputResultType.ToggleHangul ∨
         ret.ty = InputResultType.ClearPreedit ∨ ret.ty = InputResultType.Commit ∨
         ret.ty = InputResultType.CommitPreedit ∨ ret.ty = InputResultType.Preedit ∨
         ret.ty = InputResultType.CommitCommit))) ∧
    (ret.ty = InputResultType.Bypass → (filterEvent ndebug api w event).value = some false) ∧
    (ret.ty = InputResultType.CommitBypass → ret.char1 ≠ 0 →
      (filterEvent ndebug api w event).value = some false ∧
      sentEvents (filterEvent ndebug api w event).world.calls = sentEvents w.calls ++
        [(w.self.focus_object,
          { preeditString := [], attributes := [], commitString := [ret.char1] })]) := by
  obtain ⟨ty, c1, c2⟩ := ret
  cases ty <;> cases ndebug <;> by_cases h1 : c1 = 0 <;> by_cases h2 : c2 = 0 <;>
    simp_all [filterEvent, previewPayload, preedit_ch, commit_ch, sendEvent, Outcome.world,
      Outcome.value, QInputMethodEvent.empty, QInputMethodEvent.setCommitString,
      QString.fromUcs4, sentEvents_append, sentEvents]

/-- Concrete run for the amended C2: `CommitBypass` with `char1 = 'C'` commits "C" once and
the key is not consumed. -/
theorem filterEvent_consumed_witness :
    (filterEvent false (scripted ⟨InputResultType.CommitBypass, 67, 0⟩ 0) (world0 (some ⟨7⟩))
      (keyPress 0 30)).value = some false ∧
    sentEvents (filterEvent false (scripted ⟨InputResultType.CommitBypass, 67, 0⟩ 0)
      (world0 (some ⟨7⟩)) (keyPress 0 30)).world.calls =
      [(some ⟨7⟩, { preeditString := [], attributes := [], commitString := [67] })] :=
  (filterEvent_consumed false (scripted ⟨InputResultType.CommitBypass, 67, 0⟩ 0)
    (world0 (some ⟨7⟩)) (keyPress 0 30) ⟨InputResultType.CommitBypass, 67, 0⟩ 1 rfl rfl).2.2
    rfl (by decide)

/-- C3: on a key press whose engine result carries a tag outside the eight named ones,
whatever `char1` and `char2` are, `filterEvent` returns `false` and sends nothing (the log
gains the engine call only); an engine answering `Bypass` in its place gives the same
outcome. -/
theorem filterEvent_unknown_tag {E C : Type} (ndebug : Bool) (api : KimeEngine E C)
    (w : World E C) (event : QEvent) (ret : InputResult) (eng : E) (raw : Nat)
    (hkey : event.type = QEvent.KeyPress)
    (hret : api.kime_engine_press_key w.engine w.self.config (event.nativeScanCode % 2 ^ 16)
      (modifierState api event.modifiers) = (ret, eng))
    (hty : ret.ty = InputResultType.other raw) :
    filterEvent ndebug api w event =
      Outcome.returned false
        { w with engine := eng, calls := w.calls ++
          [Call.press_key (event.nativeScanCode % 2 ^ 16) (modifierState api event.modifiers)] } ∧
    sentEvents (filterEvent ndebug api w event).world.calls = sentEvents w.calls ∧
    ∀ c1 c2 : Nat,
      filterEvent ndebug
        { api with kime_engine_press_key :=
            fun _ _ _ _ => (⟨InputResultType.Bypass, c1, c2⟩, eng) } w event =
      filterEvent ndebug api w event := by
  obtain ⟨ty, c1, c2⟩ := ret
  subst hty
  simp_all [filterEvent, Outcome.world, sentEvents_append, sentEvents, modifierState]

/-- Concrete run for C3: an unknown tag with both payloads set sends nothing and is not
consumed. -/
theorem filterEvent_unknown_tag_witness :
    filterEvent false (scripted ⟨InputResultType.other 99, 65, 66⟩ 0) (world0 (some ⟨7⟩))
      (keyPress 0 30) =
      Outcome.returned false
        { engine := 1, self := (world0 (some ⟨7⟩)).self, calls := [Call.press_key 30 0] } :=
  (filterEvent_unknown_tag false (scripted ⟨InputResultType.other 99, 65, 66⟩ 0)
    (world0 (some ⟨7⟩)) (keyPress 0 30) ⟨InputResultType.other 99, 65, 66⟩ 1 99 rfl rfl rfl).1

/-- C4: an event whose type is not `KeyPress` makes `filterEvent` return `false` in the very
world it was called in: the engine state is the same, no `kime_engine_press_key` call and no
`sendEvent` call is added to the log. -/
theorem filterEvent_not_key_press {E C : Type} (ndebug : Bool) (api : KimeEngine E C)
    (w : World E C) (event : QEvent) (hkey : event.type ≠ QEvent.KeyPress) :
    filterEvent ndebug api w event = Outcome.returned false w ∧
    (filterEvent ndebug api w event).world.engine = w.engine ∧
    pressKeyCalls (filterEvent ndebug api w event).world.calls = pressKeyCalls w.calls ∧
    sentEvents (filterEvent ndebug api w event).world.calls = sentEvents w.calls := by
  simp [filterEvent, hkey, Outcome.world]

/-- Concrete run for C4: a key release, even with an engine that would answer `Commit`. -/
theorem filterEvent_not_key_press_witness :
    filterEvent false (scripted ⟨InputResultType.Commit, 65, 0⟩ 0) (world0 (some ⟨7⟩))
      { type := QEvent.KeyRelease, modifiers := 0, nativeScanCode := 30 } =
      Outcome.returned false (world0 (some ⟨7⟩)) :=
  (filterEvent_not_key_press false (scripted ⟨InputResultType.Commit, 65, 0⟩ 0)
    (world0 (some ⟨7⟩)) { type := QEvent.KeyRelease, modifiers := 0, nativeScanCode := 30 }
    (by decide)).1

/-- C5: on a key press the engine is called once, with the flag word `modifierState`.  When
`ModifierState_CONTROL`, `ModifierState_SHIFT`, `ModifierState_SUPER` are the distinct single
bits `a`, `b`, `c`, bit `a` of that word is set iff the event has the Control modifier, bit
`b` iff it has Shift, bit `c` iff it has Meta, and no other bit is set.  A second key press
that agrees on these three modifiers, whatever its other modifier bits, passes the same flag
word. -/
theorem filterEvent_modifier_flags {E C : Type} (ndebug : Bool) (api : KimeEngine E C)
    (w : World E C) (event : QEvent) (a b c : Nat)
    (hC : api.ModifierState_CONTROL = 2 ^ a) (hS : api.ModifierState_SHIFT = 2 ^ b)
    (hM : api.ModifierState_SUPER = 2 ^ c) (hab : a ≠ b) (hac : a ≠ c) (hbc : b ≠ c)
    (hkey : event.type = QEvent.KeyPress) :
    pressKeyCalls (filterEvent ndebug api w event).world.calls =
      pressKeyCalls w.calls ++
        [(event.nativeScanCode % 2 ^ 16, modifierState api event.modifiers)] ∧
    (modifierState api event.modifiers).testBit a =
      QFlags.testFlag event.modifiers Qt.ControlModifier ∧
    (modifierState api event.modifiers).testBit b =
      QFlags.testFlag event.modifiers Qt.ShiftModifier ∧
    (modifierState api event.modifiers).testBit c =
      QFlags.testFlag event.modifiers Qt.MetaModifier ∧
    (∀ i, i ≠ a → i ≠ b → i ≠ c → (modifierState api event.modifiers).testBit i = false) ∧
    (∀ (w2 : World E C) (event2 : QEvent), event2.type = QEvent.KeyPress →
      QFlags.testFlag event2.modifiers Qt.ControlModifier =
        QFlags.testFlag event.modifiers Qt.ControlModifier →
      QFlags.testFlag event2.modifiers Qt.ShiftModifier =
        QFlags.testFlag event.modifiers Qt.ShiftModifier →
      QFlags.testFlag event2.modifiers Qt.MetaModifier =
        QFlags.testFlag event.modifiers Qt.MetaModifier →
      pressKeyCalls (filterEvent ndebug api w2 event2).world.calls =
        pressKeyCalls w2.calls ++
          [(event2.nativeScanCode % 2 ^ 16, modifierState api event.modifiers)]) := by
  refine ⟨filterEvent_pressKeyCalls ndebug api w event hkey, ?_, ?_, ?_, ?_, ?_⟩
  · rw [modifierState_testBit api _ a b c hC hS hM]
    simp [hab.symm, hac.symm]
  · rw [modifierState_testBit api _ a b c hC hS hM]
    simp [hab, hbc.symm]
  · rw [modifierState_testBit api _ a b c hC hS hM]
    simp [hac, hbc]
  · intro i hia hib hic
    rw [modifierState_testBit api _ a b c hC hS hM]
    simp [Ne.symm hia, Ne.symm hib, Ne.symm hic]
  · intro w2 event2 hkey2 hc hs hm
    rw [filterEvent_pressKeyCalls ndebug api w2 event2 hkey2,
      modifierState_congr api event.modifiers event2.modifiers hc hs hm]

/-- Concrete run for C5, with kime's constants (`CONTROL = 1`, `SUPER = 2`, `SHIFT = 4`): a
key press with Control, Shift, Alt and Keypad passes the flag word `5`, and so does a key
press with Control and Shift alone. -/
theorem filterEvent_modifier_flags_witness :
    pressKeyCalls (filterEvent false (scripted ⟨InputResultType.Bypass, 0, 0⟩ 0)
      (world0 (some ⟨7⟩)) (keyPress 0x2E000000 30)).world.calls = [(30, 5)] ∧
    pressKeyCalls (filterEvent false (scripted ⟨InputResultType.Bypass, 0, 0⟩ 0)
      (world0 none) (keyPress 0x06000000 31)).world.calls = [(31, 5)] :=
  have h := filterEvent_modifier_flags false (scripted ⟨InputResultType.Bypass, 0, 0⟩ 0)
    (world0 (some ⟨7⟩)) (keyPress 0x2E000000 30) 0 2 1 rfl rfl rfl (by decide) (by decide)
    (by decide) rfl
  ⟨h.1, h.2.2.2.2.2 (world0 none) (keyPress 0x06000000 31) rfl (by decide) (by decide)
    (by decide)⟩

/-! ## Focus changes and the flush -/

/-- C6: if the engine's reset returns a non-sentinel scalar `X`, `setFocusObject` with an
absent object calls the engine's reset exactly once and then sends exactly one event: a
commit whose text is exactly `X`, without preview text.  The receiver handed to `sendEvent`
is the focus object as recorded at that moment, which is the absent one. -/
theorem setFocusObject_absent_flush {E C : Type} (api : KimeEngine E C) (w : World E C)
    (X : Nat) (eng : E) (hX : X ≠ 0) (hreset : api.kime_engine_reset w.engine = (X, eng)) :
    (setFocusObject api w none).calls = w.calls ++
      [Call.reset,
       Call.sendEvent none { preeditString := [], attributes := [], commitString := [X] }] ∧
    (sentEvents (setFocusObject api w none).calls).map Prod.snd =
      (sentEvents w.calls).map Prod.snd ++
        [{ preeditString := [], attributes := [], commitString := [X] }] ∧
    resetCalls (setFocusObject api w none).calls = resetCalls w.calls + 1 := by
  refine ⟨?_, ?_, ?_⟩ <;>
    simp [setFocusObject, reset, hreset, hX, commit_ch, sendEvent, QInputMethodEvent.empty,
      QInputMethodEvent.setCommitString, QString.fromUcs4, sentEvents_append, sentEvents,
      resetCalls_append, resetCalls]

/-- Concrete run for C6: the engine's reset returns 'X'; one reset call, one commit of "X". -/
theorem setFocusObject_absent_flush_witness :
    (sentEvents (setFocusObject (scripted ⟨InputResultType.Bypass, 0, 0⟩ 88)
      (world0 (some ⟨7⟩)) none).calls).map Prod.snd =
      [{ preeditString := [], attributes := [], commitString := [88] }] ∧
    resetCalls (setFocusObject (scripted ⟨InputResultType.Bypass, 0, 0⟩ 88)
      (world0 (some ⟨7⟩)) none).calls = 1 :=
  (setFocusObject_absent_flush (scripted ⟨InputResultType.Bypass, 0, 0⟩ 88)
    (world0 (some ⟨7⟩)) 88 0 (by decide) rfl).2

/-- C7, the code at the failing input: object 7 has focus, the engine's reset returns 'X',
and `setFocusObject` is called with an absent object.  The commit of "X" is handed to
`sendEvent` with the absent receiver, because `focus_object` is overwritten (line 33) before
`reset()` runs (line 34); object 7 receives nothing. -/
theorem setFocusObject_absent_flush_receiver :
    setFocusObject (scripted ⟨InputResultType.Bypass, 0, 0⟩ 88) (world0 (some ⟨7⟩)) none =
      { engine := 0,
        self := { config := (), focus_object := none, attributes := [⟨1⟩] },
        calls := [Call.reset,
          Call.sendEvent none { preeditString := [], attributes := [], commitString := [88] }] } ∧
    (sentEvents (setFocusObject (scripted ⟨InputResultType.Bypass, 0, 0⟩ 88)
      (world0 (some ⟨7⟩)) none).calls).filter (fun s => s.1 = some ⟨7⟩) = [] := by
  decide

/-- C8: `reset` sends an event iff the engine's reset returned a non-sentinel scalar, and
then exactly one, the commit of that scalar to the focus object; when the engine's reset
returns the sentinel, neither `reset` nor `setFocusObject` with an absent object sends
anything. -/
theorem reset_notifications {E C : Type} (api : KimeEngine E C) (w : World E C)
    (ch : Nat) (eng : E) (hreset : api.kime_engine_reset w.engine = (ch, eng)) :
    sentEvents (reset api w).calls = sentEvents w.calls ++
      (if ch = 0 then []
       else [(w.self.focus_object,
              { preeditString := [], attributes := [], commitString := [ch] })]) ∧
    (reset api w).calls = w.calls ++ Call.reset ::
      (if ch = 0 then []
       else [Call.sendEvent w.self.focus_object
              { preeditString := [], attributes := [], commitString := [ch] }]) ∧
    (ch = 0 → sentEvents (reset api w).calls = sentEvents w.calls ∧
      sentEvents (setFocusObject api w none).calls = sentEvents w.calls) := by
  by_cases h : ch = 0 <;>
    simp [setFocusObject, reset, hreset, h, commit_ch, sendEvent, QInputMethodEvent.empty,
      QInputMethodEvent.setCommitString, QString.fromUcs4, sentEvents_append, sentEvents]

/-- Concrete run for C8: the engine's reset returns the sentinel; nothing is sent, by `reset`
or by `setFocusObject` with an absent object. -/
theorem reset_notifications_witness :
    sentEvents (reset (scripted ⟨InputResultType.Bypass, 0, 0⟩ 0) (world0 (some ⟨7⟩))).calls =
      [] ∧
    sentEvents (setFocusObject (scripted ⟨InputResultType.Bypass, 0, 0⟩ 0)
      (world0 (some ⟨7⟩)) none).calls = [] :=
  (reset_notifications (scripted ⟨InputResultType.Bypass, 0, 0⟩ 0) (world0 (some ⟨7⟩)) 0 0
    rfl).2.2 rfl

/-- C9: `setFocusObject` with a present object `T` records `T` as the focus object and
changes nothing else: the engine state and the log are as before (no reset call, no event
sent).  Calling it a second time with `T` leaves the world reached by the first call. -/
theorem setFocusObject_present {E C : Type} (api : KimeEngine E C) (w : World E C)
    (T : QObject) :
    setFocusObject api w (some T) =
      { w with self := { w.self with focus_object := some T } } ∧
    (setFocusObject api w (some T)).self.focus_object = some T ∧
    (setFocusObject api w (some T)).engine = w.engine ∧
    (setFocusObject api w (some T)).calls = w.calls ∧
    resetCalls (setFocusObject api w (some T)).calls = resetCalls w.calls ∧
    sentEvents (setFocusObject api w (some T)).calls = sentEvents w.calls ∧
    setFocusObject api (setFocusObject api w (some T)) (some T) =
      setFocusObject api w (some T) := by
  simp [setFocusObject]

/-! ## The assertion of `preedit_ch` -/

/-- C10, as stated, fails: with assertions enabled, a key press answered by `CommitPreedit`
with `char1 = 'A'` and the sentinel as `char2` commits "A" and then calls `preedit_ch` with
the sentinel, whose `assert` aborts the call. -/
theorem filterEvent_preedit_assert_counterexample :
    filterEvent false (scripted ⟨InputResultType.CommitPreedit, 65, 0⟩ 0) (world0 (some ⟨7⟩))
      (keyPress 0 30) =
      Outcome.aborted
        { engine := 1, self := (world0 (some ⟨7⟩)).self,
          calls := [Call.press_key 30 0,
            Call.sendEvent (some ⟨7⟩)
              { preeditString := [], attributes := [], commitString := [65] }] } := by
  decide

/-- C10, amended: with assertions enabled, on a key press with engine result `ret`, the
`assert` of `preedit_ch` fails exactly when the scalar that `ret` routes to `preedit_ch`
(`char1` for `Preedit`, `char2` for `CommitPreedit`) is the sentinel; for every other
result `filterEvent` returns, and every event it sends with preview text carries a
non-sentinel scalar. -/
theorem filterEvent_preedit_assert {E C : Type} (api : KimeEngine E C)
    (w : World E C) (event : QEvent) (ret : InputResult) (eng : E)
    (hkey : event.type = QEvent.KeyPress)
    (hret : api.kime_engine_press_key w.engine w.self.config (event.nativeScanCode % 2 ^ 16)
      (modifierState api event.modifiers) = (ret, eng)) :
    ((filterEvent false api w event).value = none ↔ previewPayload ret = some 0) ∧
    (previewPayload ret ≠ some 0 →
      ∃ v w1 sent, filterEvent false api w event = Outcome.returned v w1 ∧
        sentEvents w1.calls = sentEvents w.calls ++ sent ∧
        ∀ s ∈ sent, s.2.preeditString ≠ [] →
          ∃ ch, ch ≠ 0 ∧ s.2.preeditString = [ch] ∧ previewPayload ret = some ch) := by
  obtain ⟨ty, c1, c2⟩ := ret
  cases ty <;> by_cases h1 : c1 = 0 <;> by_cases h2 : c2 = 0 <;>
    simp_all [filterEvent, previewPayload, preedit_ch, commit_ch, sendEvent, Outcome.value,
      QInputMethodEvent.empty, QInputMethodEvent.ofPreedit, QInputMethodEvent.setCommitString,
      QString.fromUcs4, sentEvents_append, sentEvents]
  all_goals (rintro a b (⟨-, rfl⟩ | ⟨-, rfl⟩) <;> simp)

/-- Concrete run for the amended C10: `Preedit` with `char1 = 'B'` returns; `Preedit` with
the sentinel does not. -/
theorem filterEvent_preedit_assert_witness :
    ((filterEvent false (scripted ⟨InputResultType.Preedit, 66, 0⟩ 0) (world0 (some ⟨7⟩))
      (keyPress 0 30)).value = none ↔
      previewPayload ⟨InputResultType.Preedit, 66, 0⟩ = some 0) ∧
    (filterEvent false (scripted ⟨InputResultType.Preedit, 66, 0⟩ 0) (world0 (some ⟨7⟩))
      (keyPress 0 30)).value = some true :=
  ⟨(filterEvent_preedit_assert (scripted ⟨InputResultType.Preedit, 66, 0⟩ 0)
    (world0 (some ⟨7⟩)) (keyPress 0 30) ⟨InputResultType.Preedit, 66, 0⟩ 1 rfl rfl).1,
   by decide⟩

/-! ## The dispatch primitives -/

/-- C11, as stated, fails: with no focus object, `commit_ch` with 'A' does not drop the
action; it calls `sendEvent` with the absent receiver. -/
theorem commit_ch_absent_counterexample :
    (commit_ch (world0 none) 65).calls =
      [Call.sendEvent none { preeditString := [], attributes := [], commitString := [65] }] ∧
    sentEvents (commit_ch (world0 none) 65).calls ≠ sentEvents (world0 none).calls := by
  decide

/-- C11, amended: when the focus object is absent, `commit_ch` and `preedit_ch` (unless its
`assert` aborts) still make their one `sendEvent` call, with the absent object as receiver;
so does `reset` when the engine's reset returns a non-sentinel scalar.  Neither primitive
tests `focus_object`. -/
theorem dispatch_absent_focus {E C : Type} (ndebug : Bool) (api : KimeEngine E C)
    (w : World E C) (ch : Nat) (hfocus : w.self.focus_object = none) :
    commit_ch w ch =
      { w with calls := w.calls ++
        [Call.sendEvent none
          { preeditString := [], attributes := [],
            commitString := if ch = 0 then [] else [ch] }] } ∧
    (ndebug = true ∨ ch ≠ 0 →
      preedit_ch ndebug w ch =
        Outcome.returned ()
          { w with calls := w.calls ++
            [Call.sendEvent none
              { preeditString := [ch], attributes := w.self.attributes,
                commitString := [] }] }) ∧
    ((api.kime_engine_reset w.engine).1 ≠ 0 →
      sentEvents (reset api w).calls = sentEvents w.calls ++
        [(none, { preeditString := [], attributes := [],
                  commitString := [(api.kime_engine_reset w.engine).1] })]) := by
  refine ⟨?_, ?_, ?_⟩
  · by_cases h : ch = 0 <;>
      simp [commit_ch, sendEvent, hfocus, h, QInputMethodEvent.empty,
        QInputMethodEvent.setCommitString, QString.fromUcs4]
  · rintro (h | h) <;>
      simp [preedit_ch, sendEvent, hfocus, h, QInputMethodEvent.ofPreedit, QString.fromUcs4]
  · intro h
    simp [reset, commit_ch, sendEvent, hfocus, h, QInputMethodEvent.empty,
      QInputMethodEvent.setCommitString, QString.fromUcs4, sentEvents_append, sentEvents]

/-- Concrete run for the amended C11: with no focus object, the preview of 'B' is handed to
`sendEvent` with the absent receiver. -/
theorem dispatch_absent_focus_witness :
    preedit_ch false (world0 none) 66 =
      Outcome.returned ()
        { world0 none with calls :=
          [Call.sendEvent none
            { preeditString := [66], attributes := [⟨1⟩], commitString := [] }] } :=
  (dispatch_absent_focus false (scripted ⟨InputResultType.Bypass, 0, 0⟩ 0) (world0 none) 66
    rfl).2.1 (Or.inr (by decide))

/-- C12: for every scalar `ch`, `commit_ch` adds exactly one call to the log, a `sendEvent`
to the current focus object, and changes nothing else; the event carries no preview text and
no attributes, and its commit text is exactly the one scalar `ch` when `ch` is not the
sentinel and is empty when it is. -/
theorem commit_ch_notification {E C : Type} (w : World E C) (ch : Nat) :
    commit_ch w ch =
      { w with calls := w.calls ++
        [Call.sendEvent w.self.focus_object
          { preeditString := [], attributes := [],
            commitString := if ch = 0 then [] else [ch] }] } ∧
    sentEvents (commit_ch w ch).calls = sentEvents w.calls ++
      [(w.self.focus_object,
        { preeditString := [], attributes := [],
          commitString := if ch = 0 then [] else [ch] })] := by
  by_cases h : ch = 0 <;>
    simp [commit_ch, sendEvent, h, QInputMethodEvent.empty,
      QInputMethodEvent.setCommitString, QString.fromUcs4, sentEvents_append, sentEvents]

/-! ## Independence from `char2` -/

/-- C13: take a key press and two engines whose answers to it, `ret1` and `ret2`, have the
same tag and the same `char1`.  If the tag is not one of the two that use `char2`
(`CommitPreedit`, `CommitCommit`), then `filterEvent` ends the same way with both (same
verdict, or the same abort) and adds the same sequence of sent events, whatever the two
`char2` are. -/
theorem filterEvent_char2_irrelevant {E C : Type} (ndebug : Bool)
    (api1 api2 : KimeEngine E C) (w : World E C) (event : QEvent)
    (ret1 ret2 : InputResult) (eng1 eng2 : E)
    (hkey : event.type = QEvent.KeyPress)
    (hret1 : api1.kime_engine_press_key w.engine w.self.config
      (event.nativeScanCode % 2 ^ 16) (modifierState api1 event.modifiers) = (ret1, eng1))
    (hret2 : api2.kime_engine_press_key w.engine w.self.config
      (event.nativeScanCode % 2 ^ 16) (modifierState api2 event.modifiers) = (ret2, eng2))
    (hty : ret2.ty = ret1.ty) (hc1 : ret2.char1 = ret1.char1)
    (h1 : ret1.ty ≠ InputResultType.CommitPreedit)
    (h2 : ret1.ty ≠ InputResultType.CommitCommit) :
    (filterEvent ndebug api2 w event).value = (filterEvent ndebug api1 w event).value ∧
    sentEvents (filterEvent ndebug api2 w event).world.calls =
      sentEvents (filterEvent ndebug api1 w event).world.calls := by
  obtain ⟨ty, c1, c2⟩ := ret1
  obtain ⟨ty2, d1, d2⟩ := ret2
  simp only at hty hc1 h1 h2
  subst hty hc1
  cases ty2 <;> cases ndebug <;> by_cases hz : d1 = 0 <;>
    simp_all [filterEvent, preedit_ch, commit_ch, sendEvent, Outcome.world, Outcome.value,
      sentEvents_append, sentEvents]

/-- Concrete run for C13: `Commit` of 'A' with `char2 = 0` and with `char2 = 'B'`. -/
theorem filterEvent_char2_irrelevant_witness :
    (filterEvent false (scripted ⟨InputResultType.Commit, 65, 66⟩ 0) (world0 (some ⟨7⟩))
      (keyPress 0 30)).value =
      (filterEvent false (scripted ⟨InputResultType.Commit, 65, 0⟩ 0) (world0 (some ⟨7⟩))
        (keyPress 0 30)).value ∧
    sentEvents (filterEvent false (scripted ⟨InputResultType.Commit, 65, 66⟩ 0)
      (world0 (some ⟨7⟩)) (keyPress 0 30)).world.calls =
      sentEvents (filterEvent false (scripted ⟨InputResultType.Commit, 65, 0⟩ 0)
        (world0 (some ⟨7⟩)) (keyPress 0 30)).world.calls :=
  filterEvent_char2_irrelevant false (scripted ⟨InputResultType.Commit, 65, 0⟩ 0)
    (scripted ⟨InputResultType.Commit, 65, 66⟩ 0) (world0 (some ⟨7⟩)) (keyPress 0 30)
    ⟨InputResultType.Commit, 65, 0⟩ ⟨InputResultType.Commit, 65, 66⟩ 1 1 rfl rfl rfl rfl rfl
    (by decide) (by decide)

/-! ## `preedit_ch` without its assertion -/

/-- C14, as stated, fails: with assertions compiled out, `preedit_ch` with the sentinel is
not a no-op; it sends a preview event to the focus object, the text being what
`QString::fromUcs4` makes of the one scalar `0`. -/
theorem preedit_ch_sentinel_counterexample :
    preedit_ch true (world0 (some ⟨7⟩)) 0 =
      Outcome.returned ()
        { world0 (some ⟨7⟩) with calls :=
          [Call.sendEvent (some ⟨7⟩)
            { preeditString := [0], attributes := [⟨1⟩], commitString := [] }] } ∧
    sentEvents (preedit_ch true (world0 (some ⟨7⟩)) 0).world.calls ≠
      sentEvents (world0 (some ⟨7⟩)).calls := by
  decide

/-- C14, amended: with assertions compiled out, `preedit_ch` with the sentinel makes its one
`sendEvent` call like for any other scalar: a preview event with the attribute list, built
from the scalar `0`.  Consequently a key press whose engine result routes the sentinel to
`preedit_ch` (`Preedit` with `char1 = 0`, `CommitPreedit` with `char2 = 0`) returns `true`
and sends that preview event, after the commit of `char1` in the case of `CommitPreedit`. -/
theorem preedit_ch_release_sentinel {E C : Type} (api : KimeEngine E C)
    (w : World E C) (event : QEvent) (ret : InputResult) (eng : E)
    (hkey : event.type = QEvent.KeyPress)
    (hret : api.kime_engine_press_key w.engine w.self.config (event.nativeScanCode % 2 ^ 16)
      (modifierState api event.modifiers) = (ret, eng))
    (hprev : previewPayload ret = some 0) :
    preedit_ch true w 0 =
      Outcome.returned ()
        { w with calls := w.calls ++
          [Call.sendEvent w.self.focus_object
            { preeditString := [0], attributes := w.self.attributes, commitString := [] }] } ∧
    (filterEvent true api w event).value = some true ∧
    sentEvents (filterEvent true api w event).world.calls =
      sentEvents w.calls ++
        (if ret.ty = InputResultType.CommitPreedit then
          [(w.self.focus_object,
            { preeditString := [], attributes := [],
              commitString := if ret.char1 = 0 then [] else [ret.char1] })]
         else []) ++
        [(w.self.focus_object,
          { preeditString := [0], attributes := w.self.attributes, commitString := [] })] := by
  obtain ⟨ty, c1, c2⟩ := ret
  refine ⟨by simp [preedit_ch, sendEvent, QInputMethodEvent.ofPreedit, QString.fromUcs4],
    ?_, ?_⟩ <;>
  cases ty <;> by_cases h : c1 = 0 <;>
    simp_all [filterEvent, previewPayload, preedit_ch, commit_ch, sendEvent, Outcome.world,
      Outcome.value, QInputMethodEvent.empty, QInputMethodEvent.ofPreedit,
      QInputMethodEvent.setCommitString, QString.fromUcs4, sentEvents_append, sentEvents]

/-- Concrete run for the amended C14: release build, `Preedit` with the sentinel. -/
theorem preedit_ch_release_sentinel_witness :
    (filterEvent true (scripted ⟨InputResultType.Preedit, 0, 0⟩ 0) (world0 (some ⟨7⟩))
      (keyPress 0 31)).value = some true :=
  (preedit_ch_release_sentinel (scripted ⟨InputResultType.Preedit, 0, 0⟩ 0)
    (world0 (some ⟨7⟩)) (keyPress 0 31) ⟨InputResultType.Preedit, 0, 0⟩ 1 rfl rfl rfl).2.1

/-! ## Frame and shape of what `filterEvent` sends -/

/-- C15: for every event and every engine, `filterEvent` leaves the data members of the
context (the focus object among them) as they were; every call it adds to the log is either
the engine's `press_key` or a `sendEvent` whose receiver is that same focus object; the
engine's `press_key` is called exactly once on a key press and not at all otherwise, and the
engine's reset is never called. -/
theorem filterEvent_frame {E C : Type} (ndebug : Bool) (api : KimeEngine E C)
    (w : World E C) (event : QEvent) :
    (filterEvent ndebug api w event).world.self = w.self ∧
    (filterEvent ndebug api w event).world.self.focus_object = w.self.focus_object ∧
    (∃ added, (filterEvent ndebug api w event).world.calls = w.calls ++ added ∧
      ∀ c ∈ added,
        c = Call.press_key (event.nativeScanCode % 2 ^ 16)
              (modifierState api event.modifiers) ∨
        ∃ e, c = Call.sendEvent w.self.focus_object e) ∧
    pressKeyCalls (filterEvent ndebug api w event).world.calls =
      pressKeyCalls w.calls ++
        (if event.type = QEvent.KeyPress then
          [(event.nativeScanCode % 2 ^ 16, modifierState api event.modifiers)]
         else []) ∧
    resetCalls (filterEvent ndebug api w event).world.calls = resetCalls w.calls := by
  by_cases hkey : event.type = QEvent.KeyPress
  · unfold filterEvent
    simp only [hkey, ne_eq, not_true_eq_false, if_false, if_true]
    generalize api.kime_engine_press_key w.engine w.self.config
      (event.nativeScanCode % 2 ^ 16) (modifierState api event.modifiers) = r
    obtain ⟨⟨ty, c1, c2⟩, eng⟩ := r
    cases ty <;> cases ndebug <;> by_cases h1 : c1 = 0 <;> by_cases h2 : c2 = 0 <;>
      simp [preedit_ch, commit_ch, sendEvent, Outcome.world, pressKeyCalls_append,
        pressKeyCalls, resetCalls_append, resetCalls, h1, h2]
  · simp [filterEvent, hkey, Outcome.world]

/-- Concrete run for C15: a key press answered by `CommitCommit`. -/
theorem filterEvent_frame_witness :
    (filterEvent false (scripted ⟨InputResultType.CommitCommit, 65, 66⟩ 0)
      (world0 (some ⟨7⟩)) (keyPress 0 30)).world.self = (world0 (some ⟨7⟩)).self ∧
    resetCalls (filterEvent false (scripted ⟨InputResultType.CommitCommit, 65, 66⟩ 0)
      (world0 (some ⟨7⟩)) (keyPress 0 30)).world.calls = 0 :=
  have h := filterEvent_frame false (scripted ⟨InputResultType.CommitCommit, 65, 66⟩ 0)
    (world0 (some ⟨7⟩)) (keyPress 0 30)
  ⟨h.1, h.2.2.2.2⟩

/-- C16: for every event and every engine, the events `filterEvent` sends are at most two,
at most one of them carries preview text, and none but the last does (a preview is never
followed by a commit). -/
theorem filterEvent_notification_shape {E C : Type} (ndebug : Bool) (api : KimeEngine E C)
    (w : World E C) (event : QEvent) :
    ∃ sent, sentEvents (filterEvent ndebug api w event).world.calls =
        sentEvents w.calls ++ sent ∧
      sent.length ≤ 2 ∧
      (sent.filter (fun s => isPreview s.2)).length ≤ 1 ∧
      sent.dropLast.filter (fun s => isPreview s.2) = [] := by
  by_cases hkey : event.type = QEvent.KeyPress
  · unfold filterEvent
    simp only [hkey, ne_eq, not_true_eq_false, if_false]
    generalize api.kime_engine_press_key w.engine w.self.config
      (event.nativeScanCode % 2 ^ 16) (modifierState api event.modifiers) = r
    obtain ⟨⟨ty, c1, c2⟩, eng⟩ := r
    cases ty <;> cases ndebug <;> by_cases h1 : c1 = 0 <;> by_cases h2 : c2 = 0 <;>
      simp [preedit_ch, commit_ch, sendEvent, Outcome.world, sentEvents_append, sentEvents,
        isPreview, QInputMethodEvent.empty, QInputMethodEvent.ofPreedit,
        QInputMethodEvent.setCommitString, QString.fromUcs4, h1, h2]
  · exact ⟨[], by simp [filterEvent, hkey, Outcome.world]⟩

/-! ## The scan code -/

/-- C17: on a key press with native scan code `n`, the scan code in the engine call is
`n % 2 ^ 16`.  A second key press whose scan code differs from `n` by a multiple of 65536 and
whose Control, Shift and Meta modifiers agree makes `filterEvent` end in exactly the same
way: same engine call, same engine state, same verdict, same events sent. -/
theorem filterEvent_scan_code {E C : Type} (ndebug : Bool) (api : KimeEngine E C)
    (w : World E C) (event event2 : QEvent) (k : Nat)
    (hkey : event.type = QEvent.KeyPress) (hkey2 : event2.type = QEvent.KeyPress)
    (hscan : event2.nativeScanCode = event.nativeScanCode + 65536 * k)
    (hc : QFlags.testFlag event2.modifiers Qt.ControlModifier =
      QFlags.testFlag event.modifiers Qt.ControlModifier)
    (hs : QFlags.testFlag event2.modifiers Qt.ShiftModifier =
      QFlags.testFlag event.modifiers Qt.ShiftModifier)
    (hm : QFlags.testFlag event2.modifiers Qt.MetaModifier =
      QFlags.testFlag event.modifiers Qt.MetaModifier) :
    pressKeyCalls (filterEvent ndebug api w event).world.calls =
      pressKeyCalls w.calls ++
        [(event.nativeScanCode % 2 ^ 16, modifierState api event.modifiers)] ∧
    pressKeyCalls (filterEvent ndebug api w event2).world.calls =
      pressKeyCalls w.calls ++
        [(event.nativeScanCode % 2 ^ 16, modifierState api event.modifiers)] ∧
    filterEvent ndebug api w event2 = filterEvent ndebug api w event := by
  have hmod : event2.nativeScanCode % 2 ^ 16 = event.nativeScanCode % 2 ^ 16 := by
    rw [hscan]; omega
  have hst : modifierState api event2.modifiers = modifierState api event.modifiers :=
    modifierState_congr api event.modifiers event2.modifiers hc hs hm
  have heq : filterEvent ndebug api w event2 = filterEvent ndebug api w event := by
    unfold filterEvent
    rw [hkey, hkey2, hmod, hst]
  refine ⟨filterEvent_pressKeyCalls ndebug api w event hkey, ?_, heq⟩
  rw [heq]
  exact filterEvent_pressKeyCalls ndebug api w event hkey

/-- Concrete run for C17: scan codes 30 and 65566 = 30 + 65536, the second with Alt held. -/
theorem filterEvent_scan_code_witness :
    pressKeyCalls (filterEvent false (scripted ⟨InputResultType.Commit, 65, 0⟩ 0)
      (world0 (some ⟨7⟩)) (keyPress 0x08000000 65566)).world.calls = [(30, 0)] ∧
    filterEvent false (scripted ⟨InputResultType.Commit, 65, 0⟩ 0) (world0 (some ⟨7⟩))
      (keyPress 0x08000000 65566) =
      filterEvent false (scripted ⟨InputResultType.Commit, 65, 0⟩ 0) (world0 (some ⟨7⟩))
        (keyPress 0 30) :=
  (filterEvent_scan_code false (scripted ⟨InputResultType.Commit, 65, 0⟩ 0)
    (world0 (some ⟨7⟩)) (keyPress 0 30) (keyPress 0x08000000 65566) 1 rfl rfl rfl
    (by decide) (by decide) (by decide)).2

end Kime
